import Mathlib

/-!
Shallow embedding of the bulk-download orchestrator of the anki_forvo_dl
add-on (src/BulkAdd.py, together with the card-deduplication glue in
src/__init__.py), and verification of the frozen specification claims
about it.

The embedding mirrors, definition by definition:
  - the per-record worker body of Thread.run (field resolution, the
    skip-existing shortcut, the JapanesePod101 fallback tried for the
    "ja" locale, the Forvo primary path with its vote sort and
    last-element selection, and the per-record exception boundary);
  - the worker loop with its top-of-iteration cancellation check,
    progress counter and class-level done_cards list;
  - BulkAdd.review_downloads (post-run classification);
  - the pause/cancel control surface (handle_cancel_click,
    Thread.toggle_status) as a small shared-state model;
  - the configuration-resolution flow (ensure_fields, select_field,
    ensure_languages, select_lang) driven by answer oracles.

External collaborators (Qt, the Anki collection, the network) are
modelled as oracles: an Env record of functions for provider calls and
a note store for field contents.  Logging, the dated failure-log file
and Forvo.cleanup are side channels with no bearing on the claims and
are not modelled.  Ghost fields (progress, succeededG, skippedG) record
the event trace the specification talks about; they influence nothing.
-/

namespace AnkiForvo

/-- A record (flashcard): note id (records are deduplicated by note id
upstream, in on_browser_ctx_menu_click), note-type (template) id and
deck (group) id. -/
structure Card where
  id : Nat
  noteTypeId : Nat
  deckId : Nat
  deriving DecidableEq, Repr

/-- One provider candidate with attribution, vote count and audio
reference (Forvo.Pronunciation, as consumed by BulkAdd). -/
structure Pronunciation where
  user : String
  votes : Nat
  audio : String
  deriving DecidableEq, Repr

/-- Failure reasons surfaced by the worker loop.  fieldNotFound models
FieldNotFoundException; attrError models the AttributeError raised by
reading .value on a missing ConfigObject; noResults models
NoResultsException; indexError models indexing an empty result list;
network carries any transport error from the environment; cancelled
models DownloadCancelledException, which review_downloads attaches to
records never completed in a cancelled run. -/
inductive Err where
  | fieldNotFound (field : String)
  | attrError
  | noResults
  | indexError
  | network (msg : String)
  | cancelled
  deriving DecidableEq, Repr

/-- Outcome of one record, when no exception escaped its processing. -/
inductive Outcome where
  | skipped
  | succeeded
  deriving DecidableEq, Repr

/-- A note is a list of (field name, field content) pairs; the key set
is the note type's field set. -/
abbrev NoteT := List (String × String)

/-- The host collection: note contents keyed by note id. -/
abbrev NoteStore := List (Nat × NoteT)

/-- Field read: card.note()[field]; none when the field is absent. -/
def getField (note : NoteT) (f : String) : Option String :=
  (note.find? (fun p => p.1 == f)).map (fun p => p.2)

/-- Field write; only existing fields are written (presence is checked
before any write in Thread.run). -/
def setField (note : NoteT) (f v : String) : NoteT :=
  note.map (fun p => if p.1 = f then (f, v) else p)

/-- Note lookup by note id; an unknown id reads as an empty field set. -/
def getNote (ns : NoteStore) (cid : Nat) : NoteT :=
  ((ns.find? (fun p => p.1 == cid)).map (fun p => p.2)).getD []

/-- Persist a note back into the collection (card.note().flush()). -/
def setNote (ns : NoteStore) (cid : Nat) (n : NoteT) : NoteStore :=
  ns.map (fun p => if p.1 = cid then (cid, n) else p)

/-- The add-on configuration: the two global options Thread.run reads,
plus the note-type-scoped field mappings ((field_type, note_type_id)
keys) and the deck-scoped languages, as association lists. -/
structure Config where
  skipExisting : Bool
  appendAudio : Bool
  noteTypeCfg : List ((String × Nat) × String)
  deckLang : List (Nat × String)
  deriving DecidableEq, Repr

/-- get_note_type_specific_config_object: exact-scope lookup, none when
the mapping was never set. -/
def getNoteTypeCfg (cfg : Config) (name : String) (nt : Nat) : Option String :=
  ((cfg.noteTypeCfg.find? (fun p => p.1 == (name, nt))).map (fun p => p.2))

/-- get_deck_specific_config_object for "language". -/
def getDeckLang (cfg : Config) (did : Nat) : Option String :=
  ((cfg.deckLang.find? (fun p => p.1 == did)).map (fun p => p.2))

/-- set_note_type_specific_config_object: upsert by exact key. -/
def setNoteTypeCfg (cfg : Config) (name : String) (nt : Nat) (v : String) : Config :=
  if (getNoteTypeCfg cfg name nt).isSome then
    { cfg with noteTypeCfg :=
        cfg.noteTypeCfg.map (fun p => if p.1 = (name, nt) then (p.1, v) else p) }
  else
    { cfg with noteTypeCfg := cfg.noteTypeCfg ++ [((name, nt), v)] }

/-- set_deck_specific_config_object for "language": upsert by deck id. -/
def setDeckLang (cfg : Config) (did : Nat) (lang : String) : Config :=
  if (getDeckLang cfg did).isSome then
    { cfg with deckLang := cfg.deckLang.map (fun p => if p.1 = did then (did, lang) else p) }
  else
    { cfg with deckLang := cfg.deckLang ++ [(did, lang)] }

/-- External world oracle for one run: the two fallback-provider calls
(jisho transcription lookup and JapanesePod101 download), the checksum
of a downloaded payload, registering a file with the media store, the
primary Forvo search, and downloading a chosen pronunciation.  Each can
fail, standing for the exceptions the corresponding call may raise. -/
structure Env where
  jishoKana : String → Except String String
  podPayload : String → String → Except String String
  md5sum : String → String
  mediaAddFile : String → Except String String
  primary : String → String → Except Err (List Pronunciation)
  download : Pronunciation → Except Err Unit

/-- The fixed checksum of JapanesePod101's placeholder

no-audio response

(BulkAdd.py line 364). -/
def sentinelMd5 : String := "7e2c2f954ef6051373ba916f000168dc"

/-- Write the sound reference into the audio field: append when the
appendAudio option is set, else overwrite (lines 367-372 / 387-392). -/
def writeAudio (cfg : Config) (note : NoteT) (audio_field ref : String) : NoteT :=
  if cfg.appendAudio then
    setField note audio_field (((getField note audio_field).getD "") ++ "[sound:" ++ ref ++ "]")
  else
    setField note audio_field ("[sound:" ++ ref ++ "]")

/-- Stable insertion into a vote-ascending list: an element moves left
past strictly larger vote counts only, so equal-vote candidates keep
their original relative order (Python list.sort is stable). -/
def insVote (p : Pronunciation) : List Pronunciation → List Pronunciation
  | [] => [p]
  | q :: qs => if p.votes ≤ q.votes then p :: q :: qs else q :: insVote p qs

/-- results.sort(key=lambda result: result.votes): stable ascending
sort by vote count. -/
def sortByVotes : List Pronunciation → List Pronunciation
  | [] => []
  | p :: ps => insVote p (sortByVotes ps)

/-- results[len(results) - 1] after the vote sort: the most upvoted
pronunciation, ties resolved to the latest-listed candidate.  none
models the IndexError on an empty list. -/
def selectTop (rs : List Pronunciation) : Option Pronunciation :=
  (sortByVotes rs).getLast?

/-- The JapanesePod101 fallback path for the "ja" locale (lines
346-376): jisho transcription, download, placeholder-checksum check,
media registration, field write, flush.  Returns the possibly-updated
note and a success flag; every failure mode collapses to false because
the source re-raises NoResultsException for the enclosing handler. -/
def fallbackAttempt (cfg : Config) (env : Env) (note : NoteT) (audio_field query : String) :
    NoteT × Bool :=
  match env.jishoKana query with
  | .error _ => (note, false)
  | .ok kana =>
    match env.podPayload query kana with
    | .error _ => (note, false)
    | .ok payload =>
      if env.md5sum payload = sentinelMd5 then (note, false)
      else
        match env.mediaAddFile payload with
        | .error _ => (note, false)
        | .ok media_name => (writeAudio cfg note audio_field media_name, true)

/-- The Forvo primary path (lines 380-395): search, vote sort, pick the
last element, download it, write the field, flush.  Errors propagate to
the per-record boundary. -/
def primaryAttempt (cfg : Config) (env : Env) (note : NoteT) (audio_field query language : String) :
    NoteT × Except Err Outcome :=
  match env.primary query language with
  | .error e => (note, .error e)
  | .ok results =>
    match (sortByVotes results).getLast? with
    | none => (note, .error .indexError)
    | some top =>
      match env.download top with
      | .error e => (note, .error e)
      | .ok _ => (writeAudio cfg note audio_field top.audio, .ok .succeeded)

/-- The inner try of Thread.run (lines 345-395): attempt the fallback
only for the "ja" locale; on any fallback failure fall through to the
primary path, threading any partial note mutation. -/
def tryProviders (cfg : Config) (env : Env) (note : NoteT) (audio_field query language : String) :
    NoteT × Except Err Outcome :=
  let fb := if language = "ja" then fallbackAttempt cfg env note audio_field query
            else (note, false)
  if fb.2 then (fb.1, .ok .succeeded)
  else primaryAttempt cfg env fb.1 audio_field query language

/-- The body of the per-record try of Thread.run (lines 318-395):
resolve the configured fields (reading .value of a missing config
object raises), re-validate their presence on the note, resolve the
language, apply the skip-existing shortcut, then run the provider
policy.  Returns the updated collection and the record's outcome. -/
def processCard (cfg : Config) (env : Env) (ns : NoteStore) (c : Card) :
    NoteStore × Except Err Outcome :=
  match getNoteTypeCfg cfg "searchField" c.noteTypeId with
  | none => (ns, .error .attrError)
  | some query_field =>
    match getNoteTypeCfg cfg "audioField" c.noteTypeId with
    | none => (ns, .error .attrError)
    | some audio_field =>
      let note := getNote ns c.id
      if (getField note query_field).isNone then (ns, .error (.fieldNotFound query_field))
      else if (getField note audio_field).isNone then (ns, .error (.fieldNotFound audio_field))
      else
        let query := (getField note query_field).getD ""
        match getDeckLang cfg c.deckId with
        | none => (ns, .error .attrError)
        | some language =>
          if cfg.skipExisting && (((getField note audio_field).getD "").length > 0) then
            (ns, .ok .skipped)
          else
            let pr := tryProviders cfg env note audio_field query language
            (setNote ns c.id pr.1, pr.2)

/-- Worker state accumulated by Thread.run.  cnt, skipped_cards, failed
and done_cards are the source's fields (done_cards is the class-level
list, so its initial value is whatever earlier runs in the process left
there).  progress records the values emitted through change_value;
succeededG and skippedG are ghost trails of which record went which
way.  The ghosts drive no control flow. -/
structure RunState where
  cnt : Nat
  skipped_cards : Nat
  failed : List (Card × Err)
  done_cards : List Card
  progress : List Nat
  succeededG : List Card
  skippedG : List Card
  deriving DecidableEq, Repr

/-- One iteration's state update after the record was processed.  A
skipped record hits the continue on line 337: it bumps skipped_cards
and nothing else — in particular neither done_cards nor cnt, and no
progress value is emitted.  Processed records (ok or error) are
appended to done_cards and emit cnt+1 (lines 396-406). -/
def stepState (st : RunState) (c : Card) (r : Except Err Outcome) : RunState :=
  match r with
  | .ok .skipped =>
      { st with skipped_cards := st.skipped_cards + 1, skippedG := st.skippedG ++ [c] }
  | .ok .succeeded =>
      { st with done_cards := st.done_cards ++ [c], cnt := st.cnt + 1,
                progress := st.progress ++ [st.cnt + 1], succeededG := st.succeededG ++ [c] }
  | .error e =>
      { st with failed := st.failed ++ [(c, e)], done_cards := st.done_cards ++ [c],
                cnt := st.cnt + 1, progress := st.progress ++ [st.cnt + 1] }

/-- Cancellation schedule: cancelAt = some k means handle_cancel_click
ran during iteration k, after that iteration's top-of-loop check, so
the worker first observes the flag at the top of iteration k+1. -/
def flagAt (cancelAt : Option Nat) (i : Nat) : Bool :=
  match cancelAt with
  | none => false
  | some k => decide (k < i)

/-- The worker loop of Thread.run (lines 309-411): at the top of every
iteration the cancellation flag is checked and, when set, the loop
cleans up and returns at once; otherwise the record is processed inside
the per-record try and the state updated.  The pause wait does not
change any of the data tracked here and is modelled separately by
ThreadCtl. -/
def runLoop (cfg : Config) (env : Env) (cancelAt : Option Nat) :
    Nat → List Card → NoteStore → RunState → NoteStore × RunState
  | _, [], ns, st => (ns, st)
  | i, c :: rest, ns, st =>
    if flagAt cancelAt i then (ns, st)
    else
      let p := processCard cfg env ns c
      runLoop cfg env cancelAt (i + 1) rest p.1 (stepState st c p.2)

/-- Thread.__init__ (lines 288-298): per-instance counters start at
zero, but done_cards is the class attribute and keeps its prior
contents. -/
def initState (classDone : List Card) : RunState :=
  { cnt := 0, skipped_cards := 0, failed := [], done_cards := classDone,
    progress := [], succeededG := [], skippedG := [] }

/-- A full run of Thread.run over the selected cards. -/
def runBatch (cfg : Config) (env : Env) (cancelAt : Option Nat)
    (cards : List Card) (ns : NoteStore) (classDone : List Card) : NoteStore × RunState :=
  runLoop cfg env cancelAt 0 cards ns (initState classDone)

/-- The value of is_cancelled once the thread has finished: true
exactly when the cancel click happened during some iteration that
actually ran. -/
def finalFlag (cancelAt : Option Nat) (cards : List Card) : Bool :=
  flagAt cancelAt cards.length

/-- The final report review_downloads hands to the presentation layer:
either a FailedDownloadsDialog payload (failure list plus skip count)
or the all-finished message with the skip count. -/
inductive Report where
  | failures (failed : List (Card × Err)) (skipped : Nat)
  | allOk (skipped : Nat)
  deriving DecidableEq, Repr

/-- The cancelled-run fold of review_downloads (lines 133-135): every
input card not found in done_cards is appended to the failure list
tagged with DownloadCancelledException. -/
def cancelFold (cards : List Card) (done : List Card) : List (Card × Err) :=
  (cards.filter (fun c => decide (c ∉ done))).map (fun c => (c, Err.cancelled))

/-- BulkAdd.review_downloads (lines 125-146): a non-empty failure list
is shown as-is; otherwise, if the run was cancelled, the uncompleted
cards are folded in as CancelledError; otherwise the success message is
shown.  The fold runs only in the empty-failure branch. -/
def reviewDownloads (cards : List Card) (st : RunState) (isCancelled : Bool) : Report :=
  if 0 < st.failed.length then .failures st.failed st.skipped_cards
  else if isCancelled then
    .failures (st.failed ++ cancelFold cards st.done_cards) st.skipped_cards
  else .allOk st.skipped_cards

/-- The failure pairs carried by a report. -/
def reportPairs : Report → List (Card × Err)
  | .failures f _ => f
  | .allOk _ => []

/-- The records a report lists as failed. -/
def reportCards (r : Report) : List Card :=
  (reportPairs r).map Prod.fst

/-- The records the final surface accounts for: succeeded, skipped, and
those listed as failed by the report. -/
def accounted (cards : List Card) (st : RunState) (flag : Bool) : List Card :=
  st.succeededG ++ st.skippedG ++ reportCards (reviewDownloads cards st flag)

/-- The ghost trails plus the raw failure list, before review. -/
def acctLists (st : RunState) : List Card :=
  st.succeededG ++ st.skippedG ++ st.failed.map Prod.fst

/-- The shared state the pause/cancel controls touch: the cancellation
flag, _status (true = running) and whether the worker is currently
blocked inside cond.wait. -/
structure ThreadCtl where
  is_cancelled : Bool
  status : Bool
  waiting : Bool
  deriving DecidableEq, Repr

/-- BulkAdd.handle_cancel_click (lines 154-157): sets the flag and
assigns _status = True directly.  It never touches the wait condition,
so a worker blocked in cond.wait stays blocked. -/
def handle_cancel_click (s : ThreadCtl) : ThreadCtl :=
  { s with is_cancelled := true, status := true }

/-- Thread.toggle_status (lines 413-416): flips _status and, when the
new status is running, wakes the worker via cond.wakeAll(). -/
def toggle_status (s : ThreadCtl) : ThreadCtl :=
  let s1 : ThreadCtl := { s with status := !s.status }
  if s1.status then { s1 with waiting := false } else s1

/-- Outcome of the configuration-resolution flow: either start_downloads
was reached with the accumulated configuration, or a showInfo
cancellation message ended the flow and the thread was never started. -/
inductive FlowResult where
  | started (cfg : Config)
  | cancelledMsg (msg : String)
  deriving DecidableEq, Repr

/-- The showInfo text of select_field's decline branch (line 236). -/
def fieldCancelMsg : String := "Cancelled download because field wasn\x27t selected."

/-- The showInfo text of select_lang's decline branch (line 183). -/
def langCancelMsg : String := "Cancelled download because no language was selected."

/-- Distinct note types among the cards lacking a searchField mapping
(ensure_fields line 243: list(set(...))). -/
def missingSearch (cards : List Card) (cfg : Config) : List Nat :=
  ((cards.filter (fun c => (getNoteTypeCfg cfg "searchField" c.noteTypeId).isNone)).map
    (fun c => c.noteTypeId)).dedup

/-- Distinct note types among the cards lacking an audioField mapping
(lines 224-227 / 252-255). -/
def missingAudio (cards : List Card) (cfg : Config) : List Nat :=
  ((cards.filter (fun c => (getNoteTypeCfg cfg "audioField" c.noteTypeId).isNone)).map
    (fun c => c.noteTypeId)).dedup

/-- Distinct decks among the cards lacking a language (lines 191-192). -/
def missingLang (cards : List Card) (cfg : Config) : List Nat :=
  ((cards.filter (fun c => (getDeckLang cfg c.deckId).isNone)).map
    (fun c => c.deckId)).dedup

/-- BulkAdd.select_lang (lines 165-187), which consumes its work list
from the end (missing[len-1] then pop), re-expressed structurally on
the reversed list.  ansL is the user: some = the chosen language, none
= dialog dismissed.  Each entry is one LanguageSelector dialog; the
returned count is the number of dialogs shown.  The source never calls
this with an empty list. -/
def select_lang_core (ansL : Nat → Option String) : List Nat → Config → FlowResult × Nat
  | [], cfg => (.started cfg, 0)
  | deck_id :: rest, cfg =>
    match ansL deck_id with
    | some lang =>
      let cfg1 := setDeckLang cfg deck_id lang
      match rest with
      | [] => (.started cfg1, 1)
      | _ :: _ =>
        let r := select_lang_core ansL rest cfg1
        (r.1, r.2 + 1)
    | none => (.cancelledMsg langCancelMsg, 1)

/-- BulkAdd.select_lang on the work list as the source holds it. -/
def select_lang (ansL : Nat → Option String) (missing : List Nat) (cfg : Config) :
    FlowResult × Nat :=
  select_lang_core ansL missing.reverse cfg

/-- BulkAdd.ensure_languages (lines 189-196). -/
def ensure_languages (ansL : Nat → Option String) (cards : List Card) (cfg : Config) :
    FlowResult × Nat :=
  let missing := missingLang cards cfg
  if missing.length > 0 then select_lang ansL missing cfg
  else (.started cfg, 0)

/-- BulkAdd.select_field for the audioField stage (lines 206-240 with
field_type = "audioField"), structurally on the reversed work list.
ansF is the user's FieldSelector oracle, taking (field_type,
note_type).  Returns (result, audioField dialog count, language dialog
count).  When the last gap is answered the flow moves to
ensure_languages (lines 219-222). -/
def select_field_audio_core (ansF : String → Nat → Option String)
    (ansL : Nat → Option String) (cards : List Card) :
    List Nat → Config → FlowResult × Nat × Nat
  | [], cfg =>
    let r := ensure_languages ansL cards cfg
    (r.1, 0, r.2)
  | nt :: rest, cfg =>
    match ansF "audioField" nt with
    | some fld =>
      let cfg1 := setNoteTypeCfg cfg "audioField" nt fld
      match rest with
      | [] =>
        let r := ensure_languages ansL cards cfg1
        (r.1, 1, r.2)
      | _ :: _ =>
        let r := select_field_audio_core ansF ansL cards rest cfg1
        (r.1, r.2.1 + 1, r.2.2)
    | none => (.cancelledMsg fieldCancelMsg, 1, 0)

/-- The audioField stage on the work list as the source holds it. -/
def select_field_audio (ansF : String → Nat → Option String) (ansL : Nat → Option String)
    (cards : List Card) (missing : List Nat) (cfg : Config) : FlowResult × Nat × Nat :=
  select_field_audio_core ansF ansL cards missing.reverse cfg

/-- The transition at the end of the searchField stage (lines 223-233):
recompute the audioField gaps under the updated configuration and
either enter the audioField stage or go straight to ensure_languages. -/
def after_search (ansF : String → Nat → Option String) (ansL : Nat → Option String)
    (cards : List Card) (cfg : Config) : FlowResult × Nat × Nat :=
  let new_missing := missingAudio cards cfg
  if new_missing.length > 0 then select_field_audio ansF ansL cards new_missing cfg
  else
    let r := ensure_languages ansL cards cfg
    (r.1, 0, r.2)

/-- Dialog counts of the three resolution stages. -/
structure Asks where
  search : Nat
  audio : Nat
  lang : Nat
  deriving DecidableEq, Repr

/-- BulkAdd.select_field for the searchField stage (lines 206-240 with
field_type = "searchField"), structurally on the reversed work list. -/
def select_field_search_core (ansF : String → Nat → Option String)
    (ansL : Nat → Option String) (cards : List Card) :
    List Nat → Config → FlowResult × Asks
  | [], cfg =>
    let r := after_search ansF ansL cards cfg
    (r.1, ⟨0, r.2.1, r.2.2⟩)
  | nt :: rest, cfg =>
    match ansF "searchField" nt with
    | some fld =>
      let cfg1 := setNoteTypeCfg cfg "searchField" nt fld
      match rest with
      | [] =>
        let r := after_search ansF ansL cards cfg1
        (r.1, ⟨1, r.2.1, r.2.2⟩)
      | _ :: _ =>
        let r := select_field_search_core ansF ansL cards rest cfg1
        (r.1, ⟨r.2.search + 1, r.2.audio, r.2.lang⟩)
    | none => (.cancelledMsg fieldCancelMsg, ⟨1, 0, 0⟩)

/-- The searchField stage on the work list as the source holds it. -/
def select_field_search (ansF : String → Nat → Option String) (ansL : Nat → Option String)
    (cards : List Card) (missing : List Nat) (cfg : Config) : FlowResult × Asks :=
  select_field_search_core ansF ansL cards missing.reverse cfg

/-- BulkAdd.ensure_fields (lines 242-261): resolve searchField gaps,
then audioField gaps; note that when neither field kind has gaps the
source starts the downloads directly (line 261) without passing through
ensure_languages. -/
def ensure_fields (ansF : String → Nat → Option String) (ansL : Nat → Option String)
    (cards : List Card) (cfg : Config) : FlowResult × Asks :=
  let missing := missingSearch cards cfg
  if missing.length > 0 then select_field_search ansF ansL cards missing cfg
  else
    let new_missing := missingAudio cards cfg
    if new_missing.length > 0 then
      let r := select_field_audio ansF ansL cards new_missing cfg
      (r.1, ⟨0, r.2.1, r.2.2⟩)
    else (.started cfg, ⟨0, 0, 0⟩)

/-- Concrete fixtures used by witnesses and counterexamples. -/
def cardA : Card := ⟨1, 10, 100⟩

/-- Second fixture card, same note type and deck as cardA. -/
def cardB : Card := ⟨2, 10, 100⟩

/-- Third fixture card, a different note type. -/
def cardC : Card := ⟨3, 11, 100⟩

/-- A fixture pronunciation. -/
def pronA : Pronunciation := ⟨"alice", 2, "a.mp3"⟩

/-- A configuration with both fields mapped for both fixture note types
and an "en" language for the fixture deck. -/
def cfgOk : Config :=
  { skipExisting := false, appendAudio := false,
    noteTypeCfg := [(("searchField", 10), "Front"), (("audioField", 10), "Audio"),
                    (("searchField", 11), "Front"), (("audioField", 11), "Audio")],
    deckLang := [(100, "en")] }

/-- Same configuration with the skip-existing option on. -/
def cfgSkip : Config := { cfgOk with skipExisting := true }

/-- Fixture collection: all three notes have Front filled and Audio
empty. -/
def nsOk : NoteStore :=
  [(1, [("Front", "hello"), ("Audio", "")]),
   (2, [("Front", "world"), ("Audio", "")]),
   (3, [("Front", "third"), ("Audio", "")])]

/-- Fixture collection where cardA's note already has audio content. -/
def nsAud : NoteStore :=
  [(1, [("Front", "hello"), ("Audio", "[sound:old.mp3]")])]

/-- An environment where the primary provider always returns one
candidate and every download succeeds. -/
def envOk : Env :=
  { jishoKana := fun _ => .error "net", podPayload := fun _ _ => .error "net",
    md5sum := fun s => s, mediaAddFile := fun s => .ok s,
    primary := fun _ _ => .ok [pronA], download := fun _ => .ok () }

/-- An environment where the primary provider always fails. -/
def envFail : Env := { envOk with primary := fun _ _ => .error .noResults }

/-- An environment whose fallback download always yields the
placeholder payload (checksum equal to the sentinel). -/
def envSent : Env :=
  { envOk with jishoKana := fun _ => .ok "kana", podPayload := fun _ _ => .ok "placeholder",
               md5sum := fun _ => sentinelMd5 }

/-- The vote-count fixture [3, 7, 7, 1] of the selection claim, with
distinct attributions so the chosen candidate is identifiable. -/
def demoCandidates : List Pronunciation :=
  [⟨"u1", 3, "a1"⟩, ⟨"u2", 7, "a2"⟩, ⟨"u3", 7, "a3"⟩, ⟨"u4", 1, "a4"⟩]

/-- Six cards spanning three note types (20, 21, 22), two cards per
type, for the resolution-gap fixtures. -/
def cardsC7 : List Card :=
  [⟨1, 20, 100⟩, ⟨2, 20, 100⟩, ⟨3, 21, 100⟩, ⟨4, 21, 100⟩, ⟨5, 22, 100⟩, ⟨6, 22, 100⟩]

/-- A configuration where all three fixture note types have a
searchField mapping but none has an audioField mapping. -/
def cfgC7 : Config :=
  { skipExisting := false, appendAudio := false,
    noteTypeCfg := [(("searchField", 20), "Front"), (("searchField", 21), "Front"),
                    (("searchField", 22), "Front")],
    deckLang := [] }

/-- C6: on the fixed candidate list with vote counts [3,7,7,1] the
selection step (stable ascending vote sort, then taking the last
element) returns the later of the two 7-vote candidates — a candidate
with the maximum vote count, ties resolved last-maximum-wins.
Determinism is immediate: selectTop is a pure function of its input. -/
theorem spec_C6 :
    selectTop demoCandidates = some ⟨"u3", 7, "a3"⟩ ∧
    (selectTop demoCandidates).map Pronunciation.votes = some 7 := by
  decide

/-- C3 (code bug): handle_cancel_click sets the cancellation flag and
assigns _status directly, but never signals the wait condition, so a
worker blocked in cond.wait stays blocked (waiting remains true) — the
cancel request stays invisible behind the pause, contradicting both the
claim and the stated purpose of the assignment on line 157.  The third
conjunct shows the wake-up discipline the cancel path skips:
toggle_status does clear the wait when it turns status back on. -/
theorem spec_C3 :
    (handle_cancel_click ⟨false, false, true⟩).is_cancelled = true ∧
    (handle_cancel_click ⟨false, false, true⟩).waiting = true ∧
    (toggle_status ⟨false, false, true⟩).waiting = false := by
  decide

/-- C4: for a record on the fallback ("ja") locale, a fallback-path
failure — in particular the placeholder-checksum case, which aborts
before any field write — makes the record's outcome exactly the primary
path's outcome: tryProviders equals primaryAttempt whenever the
fallback attempt reports failure, so a fallback failure alone is never
recorded as the record's result. -/
theorem spec_C4 (cfg : Config) (env : Env) (note note1 : NoteT) (af q kana payload : String) :
    (env.jishoKana q = .ok kana → env.podPayload q kana = .ok payload →
      env.md5sum payload = sentinelMd5 → fallbackAttempt cfg env note af q = (note, false)) ∧
    (fallbackAttempt cfg env note af q = (note1, false) →
      tryProviders cfg env note af q "ja" = primaryAttempt cfg env note1 af q "ja") := by
  constructor
  · intro h1 h2 h3
    simp [fallbackAttempt, h1, h2, h3]
  · intro h
    simp [tryProviders, h]

/-- Witness for C4 at a concrete sentinel-payload environment. -/
theorem spec_C4_witness :
    fallbackAttempt cfgOk envSent [("Audio", "")] "Audio" "dog" = ([("Audio", "")], false) ∧
    tryProviders cfgOk envSent [("Audio", "")] "Audio" "dog" "ja" =
      primaryAttempt cfgOk envSent [("Audio", "")] "Audio" "dog" "ja" :=
  ⟨(spec_C4 cfgOk envSent [("Audio", "")] [("Audio", "")] "Audio" "dog" "kana" "placeholder").1
      rfl rfl rfl,
   (spec_C4 cfgOk envSent [("Audio", "")] [("Audio", "")] "Audio" "dog" "kana" "placeholder").2
      (by decide)⟩

/-- The worker's progress values are 1, 2, ..., cnt and cnt counts the
processed (succeeded or failed) records only: the invariant is
preserved by every iteration, skipped records changing neither. -/
theorem runLoop_progress_inv (cfg : Config) (env : Env) (cancelAt : Option Nat)
    (cards : List Card) :
    ∀ (i : Nat) (ns : NoteStore) (st : RunState),
    st.progress = List.range' 1 st.cnt →
    st.cnt = st.succeededG.length + st.failed.length →
    (runLoop cfg env cancelAt i cards ns st).2.progress =
      List.range' 1 (runLoop cfg env cancelAt i cards ns st).2.cnt ∧
    (runLoop cfg env cancelAt i cards ns st).2.cnt =
      (runLoop cfg env cancelAt i cards ns st).2.succeededG.length +
      (runLoop cfg env cancelAt i cards ns st).2.failed.length := by
  induction cards with
  | nil =>
    intro i ns st h1 h2
    simpa [runLoop] using ⟨h1, h2⟩
  | cons c rest ih =>
    intro i ns st h1 h2
    by_cases hf : flagAt cancelAt i
    · simpa [runLoop, hf] using ⟨h1, h2⟩
    · rw [runLoop]
      simp only [hf, if_false, Bool.false_eq_true]
      rcases hp : (processCard cfg env ns c).2 with e | o
      · apply ih
        · simp [stepState, hp, h1, List.range'_1_concat, Nat.add_comm]
        · simp [stepState, hp, h2]
          omega
      · cases o
        · apply ih
          · simpa [stepState, hp] using h1
          · simpa [stepState, hp] using h2
        · apply ih
          · simp [stepState, hp, h1, List.range'_1_concat, Nat.add_comm]
          · simp [stepState, hp, h2]
            omega

/-- C2 (amended): in any run the emitted progress sequence is exactly
1, 2, ..., cnt — strictly increasing by one per processed (succeeded or
failed) record — and cnt counts exactly the processed records.  Records
skipped by the skip-existing option advance neither the counter nor the
progress signal, because the continue on line 337 bypasses both. -/
theorem spec_C2 (cfg : Config) (env : Env) (cancelAt : Option Nat) (cards : List Card)
    (ns : NoteStore) (classDone : List Card) :
    (runBatch cfg env cancelAt cards ns classDone).2.progress =
      List.range' 1 (runBatch cfg env cancelAt cards ns classDone).2.cnt ∧
    (runBatch cfg env cancelAt cards ns classDone).2.cnt =
      (runBatch cfg env cancelAt cards ns classDone).2.succeededG.length +
      (runBatch cfg env cancelAt cards ns classDone).2.failed.length :=
  runLoop_progress_inv cfg env cancelAt cards 0 ns (initState classDone) rfl rfl

/-- Counterexample to C2 as stated: a run whose single record is
skipped under the skip-existing option emits no progress value at all
and leaves the counter at zero, though the claim requires the counter
to advance by one and a signal to be emitted for a skipped record. -/
theorem spec_C2_cex :
    (runBatch cfgSkip envOk none [cardA] nsAud []).2.skippedG = [cardA] ∧
    (runBatch cfgSkip envOk none [cardA] nsAud []).2.progress = [] ∧
    (runBatch cfgSkip envOk none [cardA] nsAud []).2.cnt = 0 := by
  decide

/-- One processed-or-skipped record adds itself exactly once to the
union of the success, skip and failure trails. -/
theorem acctLists_stepState (st : RunState) (c : Card) (r : Except Err Outcome) :
    (acctLists (stepState st c r)).Perm (acctLists st ++ [c]) := by
  refine List.perm_iff_count.mpr fun a => ?_
  by_cases hac : a = c
  · subst hac
    rcases r with e | o
    · simp [acctLists, stepState, List.count_append]
    · cases o
      · simp [acctLists, stepState, List.count_append]
      · simp [acctLists, stepState, List.count_append]
        omega
  · rcases r with e | o
    · simp [acctLists, stepState, List.count_append, hac]
    · cases o <;> simp [acctLists, stepState, List.count_append, hac]

/-- Over a run that is never cancelled, the three trails together hold
the initial trails plus every input record, with multiplicity. -/
theorem runLoop_acct_perm (cfg : Config) (env : Env) (cards : List Card) :
    ∀ (i : Nat) (ns : NoteStore) (st : RunState),
    (acctLists (runLoop cfg env none i cards ns st).2).Perm (acctLists st ++ cards) := by
  induction cards with
  | nil => intro i ns st; simp [runLoop]
  | cons c rest ih =>
    intro i ns st
    have hf : flagAt none i = false := rfl
    rw [runLoop]
    simp only [hf, Bool.false_eq_true, if_false]
    refine ((ih (i + 1) _ _).trans ?_)
    have h1 : (acctLists (stepState st c (processCard cfg env ns c).2) ++ rest).Perm
        ((acctLists st ++ [c]) ++ rest) :=
      (acctLists_stepState st c (processCard cfg env ns c).2).append_right rest
    have h2 : (acctLists st ++ [c]) ++ rest = acctLists st ++ c :: rest := by simp
    exact h2 ▸ h1

/-- The loop only ever appends to done_cards, the success trail and the
failure list: whatever is there when an iteration starts is still there
when the loop returns. -/
theorem runLoop_mono (cfg : Config) (env : Env) (cancelAt : Option Nat) (cards : List Card) :
    ∀ (i : Nat) (ns : NoteStore) (st : RunState),
    (∀ c, c ∈ st.done_cards → c ∈ (runLoop cfg env cancelAt i cards ns st).2.done_cards) ∧
    (∀ c, c ∈ st.succeededG → c ∈ (runLoop cfg env cancelAt i cards ns st).2.succeededG) ∧
    (∀ p, p ∈ st.failed → p ∈ (runLoop cfg env cancelAt i cards ns st).2.failed) := by
  induction cards with
  | nil =>
    intro i ns st
    simp [runLoop]
  | cons d rest ih =>
    intro i ns st
    rw [runLoop]
    by_cases hf : flagAt cancelAt i
    · simp [hf]
    · simp only [hf, Bool.false_eq_true, if_false]
      obtain ⟨ihd, ihs, ihf⟩ :=
        ih (i + 1) (processCard cfg env ns d).1 (stepState st d (processCard cfg env ns d).2)
      refine ⟨fun c h => ihd c ?_, fun c h => ihs c ?_, fun p h => ihf p ?_⟩
      · rcases hp : (processCard cfg env ns d).2 with e | o
        · simp [stepState, hp, List.mem_append]
          exact Or.inl h
        · cases o
          · simpa [stepState, hp] using h
          · simp [stepState, hp, List.mem_append]
            exact Or.inl h
      · rcases hp : (processCard cfg env ns d).2 with e | o
        · simpa [stepState, hp] using h
        · cases o
          · simpa [stepState, hp] using h
          · simp [stepState, hp, List.mem_append]
            exact Or.inl h
      · rcases hp : (processCard cfg env ns d).2 with e | o
        · simp [stepState, hp, List.mem_append]
          exact Or.inl h
        · cases o
          · simpa [stepState, hp] using h
          · simpa [stepState, hp] using h

/-- Every record in the final done_cards either was there at entry or
was processed in some iteration, so it is also on the success trail or
(paired with its reason) in the failure list. -/
theorem runLoop_done_src (cfg : Config) (env : Env) (cancelAt : Option Nat) (cards : List Card) :
    ∀ (i : Nat) (ns : NoteStore) (st : RunState) (c : Card),
    c ∈ (runLoop cfg env cancelAt i cards ns st).2.done_cards →
    c ∈ st.done_cards ∨ c ∈ (runLoop cfg env cancelAt i cards ns st).2.succeededG ∨
      c ∈ ((runLoop cfg env cancelAt i cards ns st).2.failed.map Prod.fst) := by
  induction cards with
  | nil =>
    intro i ns st c h
    rw [runLoop] at h
    exact Or.inl h
  | cons d rest ih =>
    intro i ns st c h
    rw [runLoop] at h ⊢
    by_cases hf : flagAt cancelAt i
    · simp only [hf, if_true] at h ⊢
      exact Or.inl h
    · simp only [hf, Bool.false_eq_true, if_false] at h ⊢
      rcases hp : (processCard cfg env ns d).2 with e | o
      · rw [hp] at h
        rcases ih _ _ _ c h with h1 | h2 | h3
        · simp only [stepState, List.mem_append, List.mem_singleton] at h1
          rcases h1 with h1 | h1
          · exact Or.inl h1
          · subst h1
            refine Or.inr (Or.inr (List.mem_map.mpr ⟨(c, e), ?_, rfl⟩))
            exact (runLoop_mono cfg env cancelAt rest (i + 1) _ _).2.2 (c, e)
              (by simp [stepState, List.mem_append])
        · exact Or.inr (Or.inl h2)
        · exact Or.inr (Or.inr h3)
      · rw [hp] at h
        cases o
        · rcases ih _ _ _ c h with h1 | h2 | h3
          · simp only [stepState] at h1
            exact Or.inl h1
          · exact Or.inr (Or.inl h2)
          · exact Or.inr (Or.inr h3)
        · rcases ih _ _ _ c h with h1 | h2 | h3
          · simp only [stepState, List.mem_append, List.mem_singleton] at h1
            rcases h1 with h1 | h1
            · exact Or.inl h1
            · subst h1
              refine Or.inr (Or.inl ?_)
              exact (runLoop_mono cfg env cancelAt rest (i + 1) _ _).2.1 c
                (by simp [stepState, List.mem_append])
          · exact Or.inr (Or.inl h2)
          · exact Or.inr (Or.inr h3)

/-- Whatever lands in done_cards beyond the entry state came from the
iterated card list. -/
theorem runLoop_done_sub (cfg : Config) (env : Env) (cancelAt : Option Nat) (cards : List Card) :
    ∀ (i : Nat) (ns : NoteStore) (st : RunState) (c : Card),
    c ∈ (runLoop cfg env cancelAt i cards ns st).2.done_cards →
    c ∈ st.done_cards ∨ c ∈ cards := by
  induction cards with
  | nil =>
    intro i ns st c h
    rw [runLoop] at h
    exact Or.inl h
  | cons d rest ih =>
    intro i ns st c h
    rw [runLoop] at h
    by_cases hf : flagAt cancelAt i
    · simp only [hf, if_true] at h
      exact Or.inl h
    · simp only [hf, Bool.false_eq_true, if_false] at h
      rcases ih _ _ _ c h with h1 | h1
      · rcases hp : (processCard cfg env ns d).2 with e | o
        · rw [hp] at h1
          simp only [stepState, List.mem_append, List.mem_singleton] at h1
          rcases h1 with h1 | h1
          · exact Or.inl h1
          · exact Or.inr (by simp [h1])
        · rw [hp] at h1
          cases o
          · simp only [stepState] at h1
            exact Or.inl h1
          · simp only [stepState, List.mem_append, List.mem_singleton] at h1
            rcases h1 with h1 | h1
            · exact Or.inl h1
            · exact Or.inr (by simp [h1])
      · exact Or.inr (List.mem_cons_of_mem d h1)

/-- Whatever lands on the skip trail beyond the entry state came from
the iterated card list. -/
theorem runLoop_skipped_sub (cfg : Config) (env : Env) (cancelAt : Option Nat)
    (cards : List Card) :
    ∀ (i : Nat) (ns : NoteStore) (st : RunState) (c : Card),
    c ∈ (runLoop cfg env cancelAt i cards ns st).2.skippedG →
    c ∈ st.skippedG ∨ c ∈ cards := by
  induction cards with
  | nil =>
    intro i ns st c h
    rw [runLoop] at h
    exact Or.inl h
  | cons d rest ih =>
    intro i ns st c h
    rw [runLoop] at h
    by_cases hf : flagAt cancelAt i
    · simp only [hf, if_true] at h
      exact Or.inl h
    · simp only [hf, Bool.false_eq_true, if_false] at h
      rcases ih _ _ _ c h with h1 | h1
      · rcases hp : (processCard cfg env ns d).2 with e | o
        · rw [hp] at h1
          simp only [stepState] at h1
          exact Or.inl h1
        · rw [hp] at h1
          cases o
          · simp only [stepState, List.mem_append, List.mem_singleton] at h1
            rcases h1 with h1 | h1
            · exact Or.inl h1
            · exact Or.inr (by simp [h1])
          · simp only [stepState] at h1
            exact Or.inl h1
      · exact Or.inr (List.mem_cons_of_mem d h1)

/-- A cancel click during iteration k makes the run identical to an
uncancelled run over the first k+1 cards: iterations up to k run
normally, and the top-of-loop check stops everything after. -/
theorem runLoop_cancel_take (cfg : Config) (env : Env) (k : Nat) (cards : List Card) :
    ∀ (i : Nat) (ns : NoteStore) (st : RunState),
    runLoop cfg env (some k) i cards ns st =
      runLoop cfg env none i (cards.take (k + 1 - i)) ns st := by
  induction cards with
  | nil =>
    intro i ns st
    simp [List.take_nil, runLoop]
  | cons c rest ih =>
    intro i ns st
    by_cases h : k < i
    · have ht : k + 1 - i = 0 := by omega
      rw [ht]
      have hf : flagAt (some k) i = true := by simp [flagAt, h]
      rw [runLoop, hf]
      simp [runLoop]
    · have ht : k + 1 - i = (k - i) + 1 := by omega
      rw [ht, List.take_succ_cons]
      have hf1 : flagAt (some k) i = false := by simp [flagAt]; omega
      have hf2 : flagAt none i = false := rfl
      rw [runLoop, runLoop, hf1, hf2]
      simp only [Bool.false_eq_true, if_false]
      have harg : k + 1 - (i + 1) = k - i := by omega
      rw [ih (i + 1) (processCard cfg env ns c).1 (stepState st c (processCard cfg env ns c).2),
        harg]

/-- When the run was not cancelled the report lists exactly the records
of the failure list (the empty-failure branch shows the success message
and lists nothing). -/
theorem reportCards_not_cancelled (cards : List Card) (st : RunState) :
    reportCards (reviewDownloads cards st false) = st.failed.map Prod.fst := by
  by_cases h : 0 < st.failed.length
  · simp [reviewDownloads, reportCards, reportPairs, h]
  · have hnil : st.failed = [] := List.length_eq_zero.mp (by omega)
    simp [reviewDownloads, reportCards, reportPairs, h, hnil]

/-- C1 (amended): for a run that is never cancelled, the union of the
succeeded, skipped and reported-failed records is a permutation of the
input set — every input record exactly once.  When cancellation did
occur, the CancelledError fold of review_downloads runs only in the
branch where the failure list is empty at completion; in that case
every input record is accounted for (completed records on the success
trail, everything else folded into the failure list).  The
counterexample spec_C1_cex shows the unamended claim fails when a
record had already failed before the cancel. -/
theorem spec_C1 (cfg : Config) (env : Env) (cards : List Card) (ns : NoteStore) :
    (accounted cards (runBatch cfg env none cards ns []).2 (finalFlag none cards)).Perm cards ∧
    (∀ (k : Nat) (c : Card), k < cards.length →
      (runBatch cfg env (some k) cards ns []).2.failed = [] →
      c ∈ cards →
      c ∈ accounted cards (runBatch cfg env (some k) cards ns []).2
            (finalFlag (some k) cards)) := by
  constructor
  · have hflag : finalFlag none cards = false := rfl
    rw [hflag]
    have hacct : accounted cards (runBatch cfg env none cards ns []).2 false =
        acctLists (runBatch cfg env none cards ns []).2 := by
      unfold accounted acctLists
      rw [reportCards_not_cancelled]
    rw [hacct]
    have hperm := runLoop_acct_perm cfg env cards 0 ns (initState [])
    have hinit : acctLists (initState []) ++ cards = cards := by
      simp [acctLists, initState]
    unfold runBatch
    exact hinit ▸ hperm
  · intro k c hk hfail hc
    have hflag : finalFlag (some k) cards = true := by
      simp [finalFlag, flagAt, hk]
    rw [hflag]
    by_cases hdone : c ∈ (runBatch cfg env (some k) cards ns []).2.done_cards
    · have hsrc := runLoop_done_src cfg env (some k) cards 0 ns (initState []) c hdone
      rcases hsrc with h1 | h2 | h3
      · exact absurd h1 (by simp [initState])
      · simp only [accounted, List.mem_append]
        exact Or.inl (Or.inl h2)
      · have h3b : c ∈ List.map Prod.fst (runBatch cfg env (some k) cards ns []).2.failed := h3
        rw [hfail] at h3b
        simp at h3b
    · simp only [accounted, List.mem_append]
      refine Or.inr ?_
      have hrev : reviewDownloads cards (runBatch cfg env (some k) cards ns []).2 true =
          .failures (cancelFold cards (runBatch cfg env (some k) cards ns []).2.done_cards)
            (runBatch cfg env (some k) cards ns []).2.skipped_cards := by
        simp [reviewDownloads, hfail]
      rw [hrev]
      simp only [reportCards, reportPairs, cancelFold, List.map_map]
      refine List.mem_map.mpr ⟨c, List.mem_filter.mpr ⟨hc, ?_⟩, rfl⟩
      simpa using hdone

/-- Counterexample to C1 as stated: in a two-record run where the first
record fails and cancellation then stops the loop, review_downloads
takes the non-empty-failure branch, no CancelledError fold happens, and
the second record appears in none of succeeded, skipped or failed. -/
theorem spec_C1_cex :
    cardB ∈ [cardA, cardB] ∧
    cardB ∉ accounted [cardA, cardB] (runBatch cfgOk envFail (some 0) [cardA, cardB] nsOk []).2
      (finalFlag (some 0) [cardA, cardB]) := by
  decide

/-- Witness for C1 at a concrete two-record run (both parts, the
cancelled part at k = 0 with an otherwise-successful environment). -/
theorem spec_C1_witness :
    (accounted [cardA, cardB] (runBatch cfgOk envOk none [cardA, cardB] nsOk []).2
      (finalFlag none [cardA, cardB])).Perm [cardA, cardB] ∧
    cardA ∈ accounted [cardA, cardB] (runBatch cfgOk envOk (some 0) [cardA, cardB] nsOk []).2
      (finalFlag (some 0) [cardA, cardB]) :=
  ⟨(spec_C1 cfgOk envOk [cardA, cardB] nsOk).1,
   (spec_C1 cfgOk envOk [cardA, cardB] nsOk).2 0 cardA (by decide) (by decide) (by decide)⟩

/-- C5: an exception in a record's per-record processing is caught at
the per-record boundary: the iteration appends exactly one FailedItem
pairing the record with its reason, the loop continues with the
remaining records unchanged, and the FailedItem is still present in the
final failure list — the error neither escapes the loop nor aborts the
batch. -/
theorem spec_C5 (cfg : Config) (env : Env) (cancelAt : Option Nat) (i : Nat) (c : Card)
    (rest : List Card) (ns ns2 : NoteStore) (st : RunState) (e : Err)
    (hf : flagAt cancelAt i = false)
    (hp : processCard cfg env ns c = (ns2, .error e)) :
    runLoop cfg env cancelAt i (c :: rest) ns st =
      runLoop cfg env cancelAt (i + 1) rest ns2
        { st with failed := st.failed ++ [(c, e)], done_cards := st.done_cards ++ [c],
                  cnt := st.cnt + 1, progress := st.progress ++ [st.cnt + 1] } ∧
    (c, e) ∈ (runLoop cfg env cancelAt i (c :: rest) ns st).2.failed := by
  have heq : runLoop cfg env cancelAt i (c :: rest) ns st =
      runLoop cfg env cancelAt (i + 1) rest ns2 (stepState st c (.error e)) := by
    rw [runLoop, hf]
    simp [hp]
  constructor
  · rw [heq]
    rfl
  · rw [heq]
    exact (runLoop_mono cfg env cancelAt rest (i + 1) ns2 _).2.2 (c, e)
      (by simp [stepState, List.mem_append])

/-- Witness for C5: a concrete iteration whose record fails with
NoResults, recorded and survived to the end of the run. -/
theorem spec_C5_witness :
    runLoop cfgOk envFail none 0 [cardA, cardB] nsOk (initState []) =
      runLoop cfgOk envFail none 1 [cardB] nsOk
        { initState [] with failed := [(cardA, Err.noResults)], done_cards := [cardA],
                            cnt := 1, progress := [1] } ∧
    (cardA, Err.noResults) ∈
      (runLoop cfgOk envFail none 0 [cardA, cardB] nsOk (initState [])).2.failed :=
  spec_C5 cfgOk envFail none 0 cardA [cardB] nsOk nsOk (initState []) Err.noResults rfl rfl

/-- C9 (amended): a cancel click during iteration k stops the loop at
the top of iteration k+1: no record with index above k is processed (so
in particular at most one record beyond the click is), and — provided
the failure list is empty at completion, so review_downloads reaches
its fold branch — every unprocessed record, in particular every record
with index above k+1, is classified CancelledError.  The
counterexample spec_C9_cex shows the unamended classification clause
fails when some record had already failed. -/
theorem spec_C9 (cfg : Config) (env : Env) (cards : List Card) (ns : NoteStore) (k : Nat)
    (hnd : cards.Nodup) (hk : k < cards.length) (j : Nat) (hj : j < cards.length)
    (hkj : k < j) :
    (cards.get ⟨j, hj⟩ ∉ (runBatch cfg env (some k) cards ns []).2.done_cards ∧
     cards.get ⟨j, hj⟩ ∉ (runBatch cfg env (some k) cards ns []).2.skippedG) ∧
    ((runBatch cfg env (some k) cards ns []).2.failed = [] →
      (cards.get ⟨j, hj⟩, Err.cancelled) ∈
        reportPairs (reviewDownloads cards (runBatch cfg env (some k) cards ns []).2
          (finalFlag (some k) cards))) := by
  have htake : runBatch cfg env (some k) cards ns [] =
      runLoop cfg env none 0 (cards.take (k + 1)) ns (initState []) :=
    runLoop_cancel_take cfg env k cards 0 ns (initState [])
  have hnotin : cards.get ⟨j, hj⟩ ∉ cards.take (k + 1) := by
    intro hmem
    obtain ⟨m, hm, hgm⟩ := List.mem_iff_getElem.mp hmem
    have hmlen : m < cards.length := by
      have := List.length_take_le (k + 1) cards
      omega
    rw [List.getElem_take] at hgm
    have hmk : m < k + 1 := by
      have := hm
      rw [List.length_take] at this
      omega
    have : m = j := by
      have hg : cards.get ⟨m, hmlen⟩ = cards.get ⟨j, hj⟩ := by
        simpa [List.get_eq_getElem] using hgm
      have hfin := (List.Nodup.get_inj_iff hnd).mp hg
      simpa using hfin
    omega
  have hdone : cards.get ⟨j, hj⟩ ∉ (runBatch cfg env (some k) cards ns []).2.done_cards := by
    intro hmem
    rw [htake] at hmem
    rcases runLoop_done_sub cfg env none (cards.take (k + 1)) 0 ns (initState [])
        (cards.get ⟨j, hj⟩) hmem with h1 | h1
    · simp [initState] at h1
    · exact hnotin h1
  have hskip : cards.get ⟨j, hj⟩ ∉ (runBatch cfg env (some k) cards ns []).2.skippedG := by
    intro hmem
    rw [htake] at hmem
    rcases runLoop_skipped_sub cfg env none (cards.take (k + 1)) 0 ns (initState [])
        (cards.get ⟨j, hj⟩) hmem with h1 | h1
    · simp [initState] at h1
    · exact hnotin h1
  refine ⟨⟨hdone, hskip⟩, fun hfail => ?_⟩
  have hflag : finalFlag (some k) cards = true := by
    simp [finalFlag, flagAt, hk]
  rw [hflag]
  have hrev : reviewDownloads cards (runBatch cfg env (some k) cards ns []).2 true =
      .failures (cancelFold cards (runBatch cfg env (some k) cards ns []).2.done_cards)
        (runBatch cfg env (some k) cards ns []).2.skipped_cards := by
    simp [reviewDownloads, hfail]
  rw [hrev]
  simp only [reportPairs, cancelFold]
  refine List.mem_map.mpr ⟨cards.get ⟨j, hj⟩, List.mem_filter.mpr ⟨List.get_mem cards j hj, ?_⟩, rfl⟩
  simpa using hdone

/-- Counterexample to C9 as stated: cancel during iteration 0 of a
three-record run whose first record fails — the failure list is
non-empty, review_downloads never folds, and the record at index 2
(above k+1 = 1) is not classified CancelledError. -/
theorem spec_C9_cex :
    finalFlag (some 0) [cardA, cardB, cardC] = true ∧
    (cardC, Err.cancelled) ∉
      reportPairs (reviewDownloads [cardA, cardB, cardC]
        (runBatch cfgOk envFail (some 0) [cardA, cardB, cardC] nsOk []).2
        (finalFlag (some 0) [cardA, cardB, cardC])) := by
  decide

/-- Witness for C9: a concrete cancelled-at-0 run of three records with
no failures; the record at index 2 is unprocessed and is classified
CancelledError by the fold. -/
theorem spec_C9_witness :
    (cardC ∉ (runBatch cfgOk envOk (some 0) [cardA, cardB, cardC] nsOk []).2.done_cards ∧
     cardC ∉ (runBatch cfgOk envOk (some 0) [cardA, cardB, cardC] nsOk []).2.skippedG) ∧
    (cardC, Err.cancelled) ∈
      reportPairs (reviewDownloads [cardA, cardB, cardC]
        (runBatch cfgOk envOk (some 0) [cardA, cardB, cardC] nsOk []).2
        (finalFlag (some 0) [cardA, cardB, cardC])) := by
  have h := spec_C9 cfgOk envOk [cardA, cardB, cardC] nsOk 0 (by decide) (by decide) 2
    (by decide) (by decide)
  exact ⟨h.1, h.2 (by decide)⟩

/-- C10: done_cards is the class-level list: a second executor starts
from whatever the first one left there (its constructor resets every
per-instance field but not done_cards), so a record completed by an
earlier run is still in the list a later run consults, and the
CancelledError fold of a later cancelled run never classifies it as
cancelled.  Records are identified by value (note id) in this
embedding. -/
theorem spec_C10 (cfg1 : Config) (env1 : Env) (ca1 : Option Nat) (cards1 : List Card)
    (ns1 : NoteStore) (cfg2 : Config) (env2 : Env) (ca2 : Option Nat) (cards2 : List Card)
    (ns2 : NoteStore) (c : Card)
    (h : c ∈ (runBatch cfg1 env1 ca1 cards1 ns1 []).2.done_cards) :
    c ∈ (runBatch cfg2 env2 ca2 cards2 ns2
          ((runBatch cfg1 env1 ca1 cards1 ns1 []).2.done_cards)).2.done_cards ∧
    (c, Err.cancelled) ∉ cancelFold cards2
        (runBatch cfg2 env2 ca2 cards2 ns2
          ((runBatch cfg1 env1 ca1 cards1 ns1 []).2.done_cards)).2.done_cards := by
  have hmem : c ∈ (runBatch cfg2 env2 ca2 cards2 ns2
      ((runBatch cfg1 env1 ca1 cards1 ns1 []).2.done_cards)).2.done_cards :=
    (runLoop_mono cfg2 env2 ca2 cards2 0 ns2
      (initState ((runBatch cfg1 env1 ca1 cards1 ns1 []).2.done_cards))).1 c h
  refine ⟨hmem, fun hin => ?_⟩
  obtain ⟨x, hx, hxe⟩ := List.mem_map.mp hin
  obtain ⟨hxc, hxd⟩ := List.mem_filter.mp hx
  have hxeq : x = c := by
    simpa using congrArg Prod.fst hxe
  subst hxeq
  have hxd2 : x ∉ (runBatch cfg2 env2 ca2 cards2 ns2
      ((runBatch cfg1 env1 ca1 cards1 ns1 []).2.done_cards)).2.done_cards := by
    simpa using hxd
  exact hxd2 hmem

/-- Witness for C10: cardA completed by a first run is not folded as
CancelledError by a second, cancelled run that includes it. -/
theorem spec_C10_witness :
    cardA ∈ (runBatch cfgOk envOk (some 0) [cardA, cardB] nsOk
        ((runBatch cfgOk envOk none [cardA] nsOk []).2.done_cards)).2.done_cards ∧
    (cardA, Err.cancelled) ∉ cancelFold [cardA, cardB]
        (runBatch cfgOk envOk (some 0) [cardA, cardB] nsOk
          ((runBatch cfgOk envOk none [cardA] nsOk []).2.done_cards)).2.done_cards :=
  spec_C10 cfgOk envOk none [cardA] nsOk cfgOk envOk (some 0) [cardA, cardB] nsOk cardA
    (by decide)

/-- When the user answers every audioField dialog, the audioField stage
asks exactly once per element of its work list: one dialog per distinct
note type, however many cards share it. -/
theorem select_field_audio_core_count (ansF : String → Nat → Option String)
    (ansL : Nat → Option String) (cards : List Card) :
    ∀ (rev : List Nat) (cfg : Config), rev ≠ [] →
    (∀ nt ∈ rev, (ansF "audioField" nt).isSome) →
    (select_field_audio_core ansF ansL cards rev cfg).2.1 = rev.length := by
  intro rev
  induction rev with
  | nil =>
    intro cfg h
    exact absurd rfl h
  | cons nt rest ih =>
    intro cfg _ hans
    obtain ⟨fld, hf⟩ := Option.isSome_iff_exists.mp (hans nt (List.mem_cons_self nt rest))
    cases rest with
    | nil =>
      simp [select_field_audio_core, hf]
    | cons b rs =>
      have hrec := ih (setNoteTypeCfg cfg "audioField" nt fld) (by simp)
        (fun x hx => hans x (List.mem_cons_of_mem nt hx))
      simp only [select_field_audio_core, hf]
      simp only [select_field_audio_core] at hrec
      simpa using hrec

/-- C7: with every searchField already mapped and the user answering
every audioField dialog, ensure_fields issues exactly one audioField
resolution request per distinct note type lacking the mapping — never
one per record — because the work list is the deduplicated list of gap
note types and each answer is persisted before the next dialog. -/
theorem spec_C7 (ansF : String → Nat → Option String) (ansL : Nat → Option String)
    (cards : List Card) (cfg : Config)
    (hsearch : missingSearch cards cfg = [])
    (hans : ∀ nt ∈ missingAudio cards cfg, (ansF "audioField" nt).isSome) :
    (ensure_fields ansF ansL cards cfg).2.audio = (missingAudio cards cfg).length := by
  by_cases hA : (missingAudio cards cfg).length > 0
  · have hne : (missingAudio cards cfg).reverse ≠ [] := by
      simp only [ne_eq, List.reverse_eq_nil_iff]
      exact List.length_pos.mp hA
    have hcnt := select_field_audio_core_count ansF ansL cards
      (missingAudio cards cfg).reverse cfg hne
      (fun nt hnt => hans nt (List.mem_reverse.mp hnt))
    simp [ensure_fields, hsearch, hA, select_field_audio, hcnt]
  · simp [ensure_fields, hsearch, hA]
    omega

/-- Witness for C7: six cards over three note types missing audioField
produce exactly three audioField dialogs. -/
theorem spec_C7_witness :
    (ensure_fields (fun _ _ => some "Audio") (fun _ => some "en") cardsC7 cfgC7).2.audio = 3 := by
  rw [spec_C7 (fun _ _ => some "Audio") (fun _ => some "en") cardsC7 cfgC7 (by decide) (by decide)]
  decide

/-- If the user declines any language dialog the flow reaches, the
whole language stage ends with the cancellation message. -/
theorem select_lang_core_decline (ansL : Nat → Option String) :
    ∀ (rev : List Nat) (cfg : Config), (∃ d ∈ rev, ansL d = none) →
    (select_lang_core ansL rev cfg).1 = .cancelledMsg langCancelMsg := by
  intro rev
  induction rev with
  | nil =>
    intro cfg h
    simp at h
  | cons d rest ih =>
    intro cfg h
    rcases hAns : ansL d with _ | lang
    · simp [select_lang_core, hAns]
    · have hrest : ∃ x ∈ rest, ansL x = none := by
        rcases h with ⟨x, hx, hxn⟩
        rcases List.mem_cons.mp hx with rfl | hx2
        · rw [hAns] at hxn
          exact absurd hxn (by simp)
        · exact ⟨x, hx2, hxn⟩
      cases rest with
      | nil => simp at hrest
      | cons b rs =>
        simp only [select_lang_core, hAns]
        exact ih (setDeckLang cfg d lang) hrest

/-- If the user declines any audioField dialog the stage reaches, the
stage ends with the cancellation message. -/
theorem select_field_audio_core_decline (ansF : String → Nat → Option String)
    (ansL : Nat → Option String) (cards : List Card) :
    ∀ (rev : List Nat) (cfg : Config), (∃ nt ∈ rev, ansF "audioField" nt = none) →
    (select_field_audio_core ansF ansL cards rev cfg).1 = .cancelledMsg fieldCancelMsg := by
  intro rev
  induction rev with
  | nil =>
    intro cfg h
    simp at h
  | cons nt rest ih =>
    intro cfg h
    rcases hAns : ansF "audioField" nt with _ | fld
    · simp [select_field_audio_core, hAns]
    · have hrest : ∃ x ∈ rest, ansF "audioField" x = none := by
        rcases h with ⟨x, hx, hxn⟩
        rcases List.mem_cons.mp hx with rfl | hx2
        · rw [hAns] at hxn
          exact absurd hxn (by simp)
        · exact ⟨x, hx2, hxn⟩
      cases rest with
      | nil => simp at hrest
      | cons b rs =>
        simp only [select_field_audio_core, hAns]
        exact ih (setNoteTypeCfg cfg "audioField" nt fld) hrest

/-- If the user declines any searchField dialog the stage reaches, the
stage ends with the cancellation message. -/
theorem select_field_search_core_decline (ansF : String → Nat → Option String)
    (ansL : Nat → Option String) (cards : List Card) :
    ∀ (rev : List Nat) (cfg : Config), (∃ nt ∈ rev, ansF "searchField" nt = none) →
    (select_field_search_core ansF ansL cards rev cfg).1 = .cancelledMsg fieldCancelMsg := by
  intro rev
  induction rev with
  | nil =>
    intro cfg h
    simp at h
  | cons nt rest ih =>
    intro cfg h
    rcases hAns : ansF "searchField" nt with _ | fld
    · simp [select_field_search_core, hAns]
    · have hrest : ∃ x ∈ rest, ansF "searchField" x = none := by
        rcases h with ⟨x, hx, hxn⟩
        rcases List.mem_cons.mp hx with rfl | hx2
        · rw [hAns] at hxn
          exact absurd hxn (by simp)
        · exact ⟨x, hx2, hxn⟩
      cases rest with
      | nil => simp at hrest
      | cons b rs =>
        simp only [select_field_search_core, hAns]
        exact ih (setNoteTypeCfg cfg "searchField" nt fld) hrest

/-- C8: declining a single resolution dialog cancels the whole flow
with the user-visible cancellation message, at each of the three stage
kinds (searchField, audioField, language); the result is the
cancellation constructor, never the started constructor, so the batch
executor is not started and no record is processed. -/
theorem spec_C8 (ansF : String → Nat → Option String) (ansL : Nat → Option String)
    (cards : List Card) (cfg : Config) (missing : List Nat) :
    ((∃ nt ∈ missing, ansF "searchField" nt = none) →
      (select_field_search ansF ansL cards missing cfg).1 = .cancelledMsg fieldCancelMsg) ∧
    ((∃ nt ∈ missing, ansF "audioField" nt = none) →
      (select_field_audio ansF ansL cards missing cfg).1 = .cancelledMsg fieldCancelMsg) ∧
    ((∃ d ∈ missing, ansL d = none) →
      (select_lang ansL missing cfg).1 = .cancelledMsg langCancelMsg) := by
  refine ⟨fun h => ?_, fun h => ?_, fun h => ?_⟩
  · exact select_field_search_core_decline ansF ansL cards missing.reverse cfg
      (by rcases h with ⟨nt, hnt, hv⟩; exact ⟨nt, List.mem_reverse.mpr hnt, hv⟩)
  · exact select_field_audio_core_decline ansF ansL cards missing.reverse cfg
      (by rcases h with ⟨nt, hnt, hv⟩; exact ⟨nt, List.mem_reverse.mpr hnt, hv⟩)
  · exact select_lang_core_decline ansL missing.reverse cfg
      (by rcases h with ⟨d, hd, hv⟩; exact ⟨d, List.mem_reverse.mpr hd, hv⟩)

/-- Witness for C8: an always-declining user cancels each stage on a
one-element work list. -/
theorem spec_C8_witness :
    (select_field_search (fun _ _ => none) (fun _ => none) [] [5] cfgOk).1 =
      .cancelledMsg fieldCancelMsg ∧
    (select_field_audio (fun _ _ => none) (fun _ => none) [] [5] cfgOk).1 =
      .cancelledMsg fieldCancelMsg ∧
    (select_lang (fun _ => none) [5] cfgOk).1 = .cancelledMsg langCancelMsg := by
  have h := spec_C8 (fun _ _ => none) (fun _ => none) [] cfgOk [5]
  exact ⟨h.1 ⟨5, by simp, rfl⟩, h.2.1 ⟨5, by simp, rfl⟩, h.2.2 ⟨5, by simp, rfl⟩⟩

end AnkiForvo
